import Mathlib

/-!
# Verification of the Sentinel risk-scoring core

Shallow embedding of `src/backend/risk/engine.py` and
`src/backend/graph/builder.py` (kodalegit/sentinel).

Modelling conventions:
* Python `str` is `String`; `date` is an `Int` day number (so `d1 - d2` in days
  is plain `Int` subtraction, matching `(d1 - d2).days` on `datetime.date`);
  Python `float` amounts are modelled as exact rationals `ℚ`.
* Python `dict[str, T]` entity maps keyed by entity id are modelled as
  `List T` with lookup `List.find? (·.id = i)`; `dict` iteration order is the
  list order.  `Optional[T]` is `Option T`.
* Functions that can raise an uncaught exception are modelled in
  `Except Unit`; a raised `networkx.NodeNotFound` is `.error ()`.
* Python `f"...{x}..."` rendering of numbers is modelled by `toString`
  (comma/decimal display formatting such as `:,.0f` and `date.isoformat` is
  collapsed to the canonical decimal rendering; no claim depends on it).
-/

/-- Accumulator pass for `dedupFirst`: drop elements already seen. -/
def dedupFirstAux : List String → List String → List String
  | _, [] => []
  | seen, x :: xs =>
    if x ∈ seen then dedupFirstAux seen xs
    else x :: dedupFirstAux (x :: seen) xs

/-- Removes duplicates from a list keeping the first occurrence of each
element, mirroring Python `set` insertion / `dict.fromkeys` order. -/
def dedupFirst (l : List String) : List String := dedupFirstAux [] l

/-- `models.TenderStatus`. -/
inductive TenderStatus where
  | OPEN | EVALUATION | AWARDED | CANCELLED
deriving DecidableEq, Repr

/-- `models.RiskCategory`. -/
inductive RiskCategory where
  | HIGH | MEDIUM | LOW
deriving DecidableEq, Repr

/-- `models.RiskFactorType`. -/
inductive RiskFactorType where
  | CARTEL_PATTERN | SHELL_COMPANY | CONFLICT_OF_INTEREST | PRICE_ANOMALY | RUSHED_TIMELINE
deriving DecidableEq, Repr

/-- `models.EdgeType`. -/
inductive EdgeType where
  | DIRECTOR_OF | BID_ON | WON | AWARDED_BY | RELATED_TO | SHARES_ADDRESS | SHARES_PHONE
deriving DecidableEq, Repr

/-- `models.RelationshipType`. -/
inductive RelationshipType where
  | SIBLING | SPOUSE | PARENT_CHILD | BUSINESS_PARTNER
deriving DecidableEq, Repr

/-- The `.value` string of a `RelationshipType` enum member. -/
def RelationshipType.value : RelationshipType → String
  | .SIBLING => "SIBLING"
  | .SPOUSE => "SPOUSE"
  | .PARENT_CHILD => "PARENT_CHILD"
  | .BUSINESS_PARTNER => "BUSINESS_PARTNER"

/-- `relationship.value.lower().replace("_", " ")` as used in the
conflict-of-interest description, evaluated per enum member. -/
def RelationshipType.human : RelationshipType → String
  | .SIBLING => "sibling"
  | .SPOUSE => "spouse"
  | .PARENT_CHILD => "parent child"
  | .BUSINESS_PARTNER => "business partner"

/-- `models.Director` (fields used by the core). -/
structure Director where
  id : String
  name : String
  company_ids : List String := []
deriving DecidableEq, Repr

/-- `models.PublicOfficial`; `related_persons` is the insertion-ordered
`dict[str, RelationshipType]`. -/
structure PublicOfficial where
  id : String
  name : String
  department : String := ""
  position : String := ""
  related_persons : List (String × RelationshipType) := []
deriving DecidableEq, Repr

/-- `models.Company` (fields used by the core); `registration_date` is a day
number. -/
structure Company where
  id : String
  name : String
  registration_date : Int
  address : String := ""
  phone : String := ""
  director_ids : List String := []
deriving DecidableEq, Repr

/-- `models.Bid` (fields used by the core). -/
structure Bid where
  id : String
  tender_id : String
  company_id : String
  amount : ℚ := 0
deriving DecidableEq, Repr

/-- `models.Tender` (fields used by the core); dates are day numbers. -/
structure Tender where
  id : String
  category : String := ""
  estimated_value : ℚ := 0
  published_date : Int := 0
  deadline : Int := 0
  status : TenderStatus := .OPEN
  awarded_to : Option String := none
  awarded_amount : Option ℚ := none
  procurement_officer_id : Option String := none
deriving DecidableEq, Repr

/-- `models.RiskFactor`. -/
structure RiskFactor where
  type : RiskFactorType
  description : String
  weight : Nat
  evidence : List String := []
  related_entity_ids : List String := []
deriving DecidableEq, Repr

/-- `models.RiskScore` (recommendation is always set by the engine). -/
structure RiskScore where
  overall : Nat
  category : RiskCategory
  factors : List RiskFactor := []
  recommendation : String := ""
deriving DecidableEq, Repr

/-- `engine.RISK_WEIGHTS`. -/
def RISK_WEIGHTS : RiskFactorType → Nat
  | .CONFLICT_OF_INTEREST => 30
  | .CARTEL_PATTERN => 25
  | .SHELL_COMPANY => 20
  | .PRICE_ANOMALY => 15
  | .RUSHED_TIMELINE => 10

/-- Python `int(q)` on a rational: truncation toward zero. -/
def pyInt (q : ℚ) : Int := if 0 ≤ q then ⌊q⌋ else ⌈q⌉

/-- Rendering of a numeric amount inside an f-string (see module header). -/
def fmtQ (q : ℚ) : String := toString q

/-- Rendering of a date inside an f-string (see module header). -/
def fmtDate (d : Int) : String := toString d

/-- Python truthiness of an `Optional[float]`: `None` and `0.0` are falsy. -/
def truthyOptQ : Option ℚ → Bool
  | none => false
  | some q => decide (q ≠ 0)

/-- `engine.check_shell_company`. -/
def check_shell_company (tender : Tender) (winner : Option Company) : Option RiskFactor :=
  match winner with
  | none => none
  | some w =>
    let company_age_days : Int := tender.deadline - w.registration_date
    if company_age_days < 30 then
      some {
        type := .SHELL_COMPANY,
        description := "Winning company registered only " ++ toString company_age_days ++
          " days before tender deadline",
        weight := RISK_WEIGHTS .SHELL_COMPANY,
        evidence := [
          "Company: " ++ w.name,
          "Registration date: " ++ fmtDate w.registration_date,
          "Tender deadline: " ++ fmtDate tender.deadline,
          "Company age at deadline: " ++ toString company_age_days ++ " days",
          match tender.awarded_amount with
          | some amt => if amt ≠ 0 then "Contract value: KES " ++ fmtQ amt else ""
          | none => ""
        ],
        related_entity_ids := [w.id]
      }
    else if company_age_days < 90 then
      some {
        type := .SHELL_COMPANY,
        description := "Winning company registered only " ++ toString company_age_days ++
          " days before tender deadline",
        weight := RISK_WEIGHTS .SHELL_COMPANY / 2,
        evidence := [
          "Company: " ++ w.name,
          "Registration date: " ++ fmtDate w.registration_date,
          "Tender deadline: " ++ fmtDate tender.deadline,
          "Company age at deadline: " ++ toString company_age_days ++ " days"
        ],
        related_entity_ids := [w.id]
      }
    else none

/-- `engine.check_rushed_timeline`. -/
def check_rushed_timeline (tender : Tender) : Option RiskFactor :=
  let submission_window : Int := tender.deadline - tender.published_date
  if submission_window ≤ 5 then
    some {
      type := .RUSHED_TIMELINE,
      description := "Tender had only " ++ toString submission_window ++ "-day submission window",
      weight := RISK_WEIGHTS .RUSHED_TIMELINE,
      evidence := [
        "Published: " ++ fmtDate tender.published_date,
        "Deadline: " ++ fmtDate tender.deadline,
        "Window: " ++ toString submission_window ++ " days",
        "Standard window should be 14-21 days for competitive bidding"
      ],
      related_entity_ids := [tender.id]
    }
  else if submission_window ≤ 7 then
    some {
      type := .RUSHED_TIMELINE,
      description := "Tender had short " ++ toString submission_window ++ "-day submission window",
      weight := RISK_WEIGHTS .RUSHED_TIMELINE / 2,
      evidence := [
        "Published: " ++ fmtDate tender.published_date,
        "Deadline: " ++ fmtDate tender.deadline,
        "Window: " ++ toString submission_window ++ " days"
      ],
      related_entity_ids := [tender.id]
    }
  else none

/-- The `comparable` filter inside `engine.check_price_anomaly`: other
tenders of the same category that are awarded and have a truthy awarded
amount. -/
def comparableTo (tender : Tender) (t : Tender) : Bool :=
  t.id ≠ tender.id && t.category = tender.category &&
    truthyOptQ t.awarded_amount && t.status = TenderStatus.AWARDED

/-- `engine.check_price_anomaly`; `all_tenders.values()` is the list
argument. -/
def check_price_anomaly (tender : Tender) (all_tenders : List Tender) : Option RiskFactor :=
  match tender.awarded_amount with
  | none => none
  | some awarded =>
    if awarded = 0 ∨ tender.estimated_value = 0 then none
    else
      let r : ℚ := awarded / tender.estimated_value
      if 3/2 < r then
        let percentage : Int := pyInt ((r - 1) * 100)
        let comparable := all_tenders.filter (comparableTo tender)
        let evidence := [
          "Awarded amount: KES " ++ fmtQ awarded,
          "Estimated value: KES " ++ fmtQ tender.estimated_value,
          "Deviation: " ++ toString percentage ++ "% above estimate"
        ]
        let evidence :=
          if comparable.length ≠ 0 then
            let avg_comparable : ℚ :=
              (comparable.map (fun t => t.awarded_amount.getD 0)).sum / (comparable.length : ℚ)
            if avg_comparable * (3/2) < awarded then
              evidence ++ ["Category average: KES " ++ fmtQ avg_comparable]
            else evidence
          else evidence
        some {
          type := .PRICE_ANOMALY,
          description := "Contract awarded at " ++ toString percentage ++ "% above estimated value",
          weight := RISK_WEIGHTS .PRICE_ANOMALY,
          evidence := evidence,
          related_entity_ids := [tender.id]
        }
      else none

/-! ## Graph model (`graph/builder.py`)

A `networkx.Graph` is modelled by its node list and the insertion-ordered
list of `add_edge` calls.  Edge-attribute lookup on the final graph is
last-write-wins over an unordered endpoint pair. -/

/-- One `G.add_edge(src, dst, ...)` call with its attributes. -/
structure EdgeRec where
  src : String
  dst : String
  relationship : EdgeType
  suspicious : Bool
  relTag : Option String := none
  amount : Option ℚ := none
deriving DecidableEq, Repr

/-- Undirected graph as node list plus edge-insertion history. -/
structure Graph where
  nodes : List String
  edges : List EdgeRec
deriving DecidableEq, Repr

/-- Neighbours of `u`: the other endpoint of every inserted edge touching
`u` (duplicates are harmless for reachability). -/
def Graph.neighbors (G : Graph) (u : String) : List String :=
  G.edges.filterMap (fun e =>
    if e.src = u then some e.dst else if e.dst = u then some e.src else none)

/-- `G.walkB v n u = true` iff some walk of at most `n` edges leads from `u`
to `v` in `G`. -/
def Graph.walkB (G : Graph) (v : String) : Nat → String → Bool
  | 0, u => decide (u = v)
  | n + 1, u => u = v || (G.neighbors u).any (fun w => G.walkB v n w)

/-- Search depth used by `Graph.spLen`: any distance the engine ever
compares against (≤ 3 edges) lies far below it. -/
def Graph.spBound (G : Graph) : Nat := G.nodes.length + G.edges.length + 4

/-- Model of `nx.shortest_path` restricted to what the engine observes: the
edge count of a shortest walk from `u` to `v`, `none` when no walk of at
most `spBound` edges exists.  (The engine only compares the length against
3, and `spBound ≥ 4`, so the cut-off is not observable.) -/
def Graph.spLen (G : Graph) (u v : String) : Option Nat :=
  if h : G.walkB v (G.spBound) u = true then
    some (Nat.find (⟨G.spBound, h⟩ : ∃ n, G.walkB v n u = true))
  else none

/-- `builder.find_conflict_path`: wraps `nx.shortest_path`, catching only
`NetworkXNoPath`.  A missing endpoint raises `NodeNotFound`, modelled as
`.error ()`.  A found path is reported by its node count
(`len(path) = edges + 1`). -/
def find_conflict_path (G : Graph) (company_id official_id : String) :
    Except Unit (Option Nat) :=
  if company_id ∈ G.nodes ∧ official_id ∈ G.nodes then
    .ok ((G.spLen company_id official_id).map (· + 1))
  else
    .error ()

/-- `builder._normalize_phone`: keep only digit characters. -/
def normalize_phone (phone : String) : String :=
  String.mk (phone.toList.filter Char.isDigit)

/-- The regex `plot\s*(\d+)` attempted at the start of a character list:
literal `plot`, then whitespace, then a maximal nonempty digit run (the
captured group). -/
def plotDigitsAt : List Char → Option (List Char)
  | 'p' :: 'l' :: 'o' :: 't' :: rest =>
    let ds := (rest.dropWhile Char.isWhitespace).takeWhile Char.isDigit
    if ds.isEmpty then none else some ds
  | _ => none

/-- `re.search` of `plot\s*(\d+)`: first position whose suffix matches. -/
def searchPlot : List Char → Option (List Char)
  | [] => none
  | c :: rest =>
    match plotDigitsAt (c :: rest) with
    | some ds => some ds
    | none => searchPlot rest

/-- Captured plot-number group of an address after lowercasing
(`addr1.lower()` is modelled as character-wise `Char.toLower`, the ASCII
range of Python `str.lower`). -/
def plotNumber (addr : String) : Option String :=
  (searchPlot (addr.data.map Char.toLower)).map String.mk

/-- `builder._addresses_similar`: both addresses yield a plot group and the
captured digit strings are equal. -/
def addresses_similar (addr1 addr2 : String) : Bool :=
  match plotNumber addr1, plotNumber addr2 with
  | some d1, some d2 => d1 = d2
  | _, _ => false

/-- `DIRECTOR_OF` edges contributed by one director
(`build_procurement_graph`, directors loop). -/
def directorOfEdges (companies : List Company) (d : Director) : List EdgeRec :=
  d.company_ids.filterMap (fun cid =>
    if (companies.find? (fun c => c.id = cid)).isSome then
      some { src := d.id, dst := cid, relationship := .DIRECTOR_OF, suspicious := false }
    else none)

/-- `RELATED_TO` edges contributed by one official
(`build_procurement_graph`, officials loop): one edge per related person
found in the directors map, marked suspicious and tagged with the
relationship kind. -/
def relatedToEdges (directors : List Director) (o : PublicOfficial) : List EdgeRec :=
  o.related_persons.filterMap (fun pr =>
    if (directors.find? (fun d => d.id = pr.1)).isSome then
      some { src := o.id, dst := pr.1, relationship := .RELATED_TO,
             suspicious := true, relTag := some pr.2.value }
    else none)

/-- `AWARDED_BY` edges contributed by one tender
(`build_procurement_graph`, tenders loop); the officer id must be truthy
and present in the officials map. -/
def awardedByEdges (officials : List PublicOfficial) (t : Tender) : List EdgeRec :=
  match t.procurement_officer_id with
  | none => []
  | some offId =>
    if offId ≠ "" ∧ (officials.find? (fun o => o.id = offId)).isSome then
      [{ src := t.id, dst := offId, relationship := .AWARDED_BY, suspicious := false }]
    else []

/-- `WON`/`BID_ON` edge contributed by one bid (`build_procurement_graph`,
bids loop); skipped when company or tender is missing from its map. -/
def bidEdge (tenders : List Tender) (companies : List Company) (b : Bid) : Option EdgeRec :=
  if (companies.find? (fun c => c.id = b.company_id)).isSome then
    match tenders.find? (fun t => t.id = b.tender_id) with
    | some tender =>
      some { src := b.company_id, dst := b.tender_id,
             relationship := if tender.awarded_to = some b.company_id then .WON else .BID_ON,
             suspicious := false, amount := some b.amount }
    | none => none
  else none

/-- `builder._add_shared_address_edges`: ordered pairs `i < j` of the
company list with similar addresses. -/
def sharedAddressEdges : List Company → List EdgeRec
  | [] => []
  | c :: rest =>
    (rest.filterMap (fun c2 =>
      if addresses_similar c.address c2.address then
        some { src := c.id, dst := c2.id, relationship := .SHARES_ADDRESS, suspicious := true }
      else none)) ++ sharedAddressEdges rest

/-- `builder._add_shared_phone_edges`: ordered pairs `i < j` of the company
list with equal normalized phones. -/
def sharedPhoneEdges : List Company → List EdgeRec
  | [] => []
  | c :: rest =>
    (rest.filterMap (fun c2 =>
      if normalize_phone c.phone = normalize_phone c2.phone then
        some { src := c.id, dst := c2.id, relationship := .SHARES_PHONE, suspicious := true }
      else none)) ++ sharedPhoneEdges rest

/-- `builder.build_procurement_graph`: nodes for every entity, then the six
edge passes in source order (edge-insertion order and multiplicity are
preserved exactly; the node list is the node set in first-seen order). -/
def build_procurement_graph (tenders : List Tender) (companies : List Company)
    (directors : List Director) (officials : List PublicOfficial)
    (bids : List Bid) : Graph :=
  let edges :=
    directors.flatMap (directorOfEdges companies) ++
    officials.flatMap (relatedToEdges directors) ++
    tenders.flatMap (awardedByEdges officials) ++
    bids.filterMap (bidEdge tenders companies) ++
    sharedAddressEdges companies ++
    sharedPhoneEdges companies
  { nodes := dedupFirst (companies.map (fun c => c.id) ++ directors.map (fun d => d.id) ++
      officials.map (fun o => o.id) ++ tenders.map (fun t => t.id) ++
      edges.flatMap (fun e => [e.src, e.dst])),
    edges := edges }

/-! ## Cartel detection (`builder.find_cartel_clusters`) -/

/-- `tuple(sorted([comp1, comp2]))`. -/
def sortPair (a b : String) : String × String := if a ≤ b then (a, b) else (b, a)

/-- Keys of the `tender_bidders` dict in insertion order. -/
def tenderIds (bids : List Bid) : List String :=
  dedupFirst (bids.map (fun b => b.tender_id))

/-- The distinct-bidder set of one tender, in insertion order. -/
def tenderBidders (bids : List Bid) (tid : String) : List String :=
  dedupFirst ((bids.filter (fun b => b.tender_id = tid)).map (fun b => b.company_id))

/-- The `i < j` pair loop over one bidder list, each pair sorted. -/
def pairsOf : List String → List (String × String)
  | [] => []
  | x :: xs => xs.map (sortPair x) ++ pairsOf xs

/-- All pair-counter increments performed while building `co_bid_counts`,
as a multiset of sorted pairs. -/
def coBidPairs (bids : List Bid) : List (String × String) :=
  (tenderIds bids).flatMap (fun tid => pairsOf (tenderBidders bids tid))

/-- `co_bid_counts[pair]` (0 when the pair never co-bid and so is absent
from the dict). -/
def coBidCount (bids : List Bid) (p : String × String) : Nat :=
  (coBidPairs bids).count p

/-- Whether the auxiliary `co_bid_graph` contains the edge `{a, b}`: the
pair is a key of `co_bid_counts` (count ≥ 1) and its counter reaches the
threshold. -/
def auxEdge (bids : List Bid) (min_co_bids : Nat) (a b : String) : Bool :=
  1 ≤ coBidCount bids (sortPair a b) && min_co_bids ≤ coBidCount bids (sortPair a b)

/-- Spec-level count: the number of distinct tenders on which both `a` and
`b` appear as bidders. -/
def coTenderCount (bids : List Bid) (a b : String) : Nat :=
  ((tenderIds bids).filter (fun tid =>
    a ∈ tenderBidders bids tid ∧ b ∈ tenderBidders bids tid)).length

/-- Adjacency of the auxiliary co-bid graph, as a relation. -/
def auxAdj (bids : List Bid) (min_co_bids : Nat) (a b : String) : Prop :=
  auxEdge bids min_co_bids a b = true

/-- A vertex of the auxiliary co-bid graph (`add_edge` only ever inserts
edge endpoints as nodes). -/
def auxNode (bids : List Bid) (min_co_bids : Nat) (c : String) : Prop :=
  ∃ d, auxAdj bids min_co_bids c d

/-- Reachability in the auxiliary co-bid graph. -/
def auxReach (bids : List Bid) (min_co_bids : Nat) : String → String → Prop :=
  Relation.ReflTransGen (auxAdj bids min_co_bids)

/-- Model of `nx.connected_components(co_bid_graph)`: the reachability
class of each vertex of the auxiliary graph. -/
def connectedComponents (bids : List Bid) (min_co_bids : Nat) : Set (Set String) :=
  { S | ∃ c, auxNode bids min_co_bids c ∧ S = { d | auxReach bids min_co_bids c d } }

/-- `builder.find_cartel_clusters` (clusters as their member sets): the
connected components of the auxiliary co-bid graph of size ≥ 3. -/
def find_cartel_clusters (bids : List Bid) (min_co_bids : Nat) : Set (Set String) :=
  { S | S ∈ connectedComponents bids min_co_bids ∧ 3 ≤ S.ncard }

/-! ## Remaining engine checks (`risk/engine.py`) -/

/-- The `for director_id in winner.director_ids` loop of
`check_conflict_of_interest`: the first director id that is a key of the
official's related-person map, with its relationship. -/
def firstRelatedDirector (ids : List String)
    (rel : List (String × RelationshipType)) : Option (String × RelationshipType) :=
  match ids with
  | [] => none
  | d :: rest =>
    match rel.find? (fun pr => pr.1 = d) with
    | some pr => some (d, pr.2)
    | none => firstRelatedDirector rest rel

/-- The direct conflict-of-interest factor built by
`check_conflict_of_interest` for the first related director `dr`. -/
def coiDirectFactor (directors : List Director) (official : PublicOfficial)
    (w : Company) (dr : String × RelationshipType) : RiskFactor :=
  { type := .CONFLICT_OF_INTEREST,
    description := "Winning vendor\x27s director " ++
      (match directors.find? (fun d => d.id = dr.1) with
       | some d => d.name
       | none => "Unknown") ++
      " is " ++ dr.2.human ++ " of Procurement Officer " ++ official.name,
    weight := RISK_WEIGHTS .CONFLICT_OF_INTEREST,
    evidence := [
      "Director: " ++ (match directors.find? (fun d => d.id = dr.1) with
       | some d => d.name
       | none => dr.1),
      "Official: " ++ official.name ++ " (" ++ official.position ++ ")",
      "Relationship: " ++ dr.2.value,
      "Department: " ++ official.department
    ],
    related_entity_ids := [dr.1, official.id, w.id] }

/-- The reduced-weight indirect conflict-of-interest factor built by
`check_conflict_of_interest` from a path with `len` nodes. -/
def coiIndirectFactor (len : Nat) : RiskFactor :=
  { type := .CONFLICT_OF_INTEREST,
    description := "Connection path found between winner and procurement officer",
    weight := RISK_WEIGHTS .CONFLICT_OF_INTEREST - 10,
    evidence := [
      "Path: (" ++ toString len ++ " nodes)",
      "Path length: " ++ toString (len - 1) ++ " connections"
    ],
    related_entity_ids := [] }

/-- `engine.check_conflict_of_interest`.  The indirect-path factor keeps the
path only through its node count, so its path-listing evidence strings and
`related_entity_ids` are modelled from that count (no claim reads them). -/
def check_conflict_of_interest (tender : Tender) (winner : Option Company)
    (directors : List Director) (officials : List PublicOfficial)
    (G : Graph) : Except Unit (Option RiskFactor) :=
  match winner with
  | none => .ok none
  | some w =>
    match tender.procurement_officer_id with
    | none => .ok none
    | some offId =>
      if offId = "" then .ok none
      else
        match officials.find? (fun o => o.id = offId) with
        | none => .ok none
        | some official =>
          match firstRelatedDirector w.director_ids official.related_persons with
          | some dr => .ok (some (coiDirectFactor directors official w dr))
          | none =>
            match find_conflict_path G w.id offId with
            | .error e => .error e
            | .ok pathLen =>
              match pathLen with
              | some len =>
                if len ≤ 4 then .ok (some (coiIndirectFactor len))
                else .ok none
              | none => .ok none

/-- The `for cartel in cartel_clusters` loop of `check_cartel_pattern`:
first cluster whose overlap with the tender's bidders has ≥ 3 members,
together with that overlap. -/
def firstQualifyingCartel (bidding : List String) :
    List (List String) → Option (List String × List String)
  | [] => none
  | cartel :: rest =>
    let overlap := bidding.filter (fun c => c ∈ cartel)
    if 3 ≤ overlap.length then some (overlap, cartel)
    else firstQualifyingCartel bidding rest

/-- `engine.check_cartel_pattern` (clusters passed as member lists). -/
def check_cartel_pattern (tender : Tender) (tender_bids : List Bid)
    (companies : List Company) (cartel_clusters : List (List String)) : Option RiskFactor :=
  let bidding_company_ids := dedupFirst (tender_bids.map (fun b => b.company_id))
  match firstQualifyingCartel bidding_company_ids cartel_clusters with
  | none => none
  | some oc =>
    let cartel_names := (oc.1.filter
      (fun cid => (companies.find? (fun c => c.id = cid)).isSome)).map
      (fun cid => ((companies.find? (fun c => c.id = cid)).map (fun c => c.name)).getD cid)
    some {
      type := .CARTEL_PATTERN,
      description := "Suspected bidding cartel: " ++ toString oc.1.length ++
        " companies that consistently bid together are present in this tender",
      weight := RISK_WEIGHTS .CARTEL_PATTERN,
      evidence := [
        "Cartel members in this tender: " ++ String.intercalate ", " cartel_names,
        "Total cartel size: " ++ toString oc.2.length ++ " companies",
        "Pattern: These companies consistently bid on the same tenders"
      ],
      related_entity_ids := oc.1
    }

/-- `engine.generate_recommendation`. -/
def generate_recommendation (factors : List RiskFactor) (category : RiskCategory) : String :=
  if category = RiskCategory.LOW then
    "No immediate action required. Routine monitoring recommended."
  else
    let recommendations := factors.map (fun f =>
      match f.type with
      | .CONFLICT_OF_INTEREST => "Request conflict of interest declarations from all parties"
      | .CARTEL_PATTERN => "Review bidding patterns across related tenders"
      | .SHELL_COMPANY => "Verify company credentials and track record"
      | .PRICE_ANOMALY => "Conduct market price verification"
      | .RUSHED_TIMELINE => "Review justification for expedited timeline")
    let recommendations :=
      if category = RiskCategory.HIGH then
        recommendations ++ [
          "Escalate to Internal Audit for immediate review",
          "Consider freezing payment pending investigation"]
      else recommendations
    String.intercalate " • " (dedupFirst recommendations)

/-- `[f]` when present, `[]` otherwise (the `if factor: factors.append`
pattern). -/
def optList : Option RiskFactor → List RiskFactor
  | some f => [f]
  | none => []

/-- `engine.compute_risk_score`. -/
def compute_risk_score (tender : Tender) (companies : List Company)
    (directors : List Director) (officials : List PublicOfficial)
    (bids : List Bid) (G : Graph) (cartel_clusters : List (List String))
    (all_tenders : List Tender) : Except Unit RiskScore :=
  let winner : Option Company :=
    match tender.awarded_to with
    | some aid => if aid = "" then none else companies.find? (fun c => c.id = aid)
    | none => none
  let tender_bids := bids.filter (fun b => b.tender_id = tender.id)
  match check_conflict_of_interest tender winner directors officials G with
  | .error e => .error e
  | .ok coi_factor =>
    let factors :=
      optList coi_factor ++
      optList (check_cartel_pattern tender tender_bids companies cartel_clusters) ++
      optList (check_shell_company tender winner) ++
      optList (check_price_anomaly tender all_tenders) ++
      optList (check_rushed_timeline tender)
    let overall : Nat := min ((factors.map (fun f => f.weight)).sum) 100
    let category :=
      if 50 ≤ overall then RiskCategory.HIGH
      else if 25 ≤ overall then RiskCategory.MEDIUM
      else RiskCategory.LOW
    .ok {
      overall := overall,
      category := category,
      factors := factors,
      recommendation := generate_recommendation factors category
    }

/-! ## Derived spec-level quantities for the price-anomaly check -/

/-- The comparable same-category awarded tenders considered by
`check_price_anomaly`. -/
def categoryComparable (tender : Tender) (all_tenders : List Tender) : List Tender :=
  all_tenders.filter (comparableTo tender)

/-- The category average awarded amount over `categoryComparable`. -/
def categoryAverage (tender : Tender) (all_tenders : List Tender) : ℚ :=
  ((categoryComparable tender all_tenders).map (fun t => t.awarded_amount.getD 0)).sum /
    ((categoryComparable tender all_tenders).length : ℚ)

/-- Truncation and floor agree on the percent-above-estimate value whenever
the factor fires (the ratio exceeds 3/2, so the operand is positive). -/
theorem pyInt_eq_floor_of_nonneg (q : ℚ) (h : 0 ≤ q) : pyInt q = ⌊q⌋ := by
  simp [pyInt, h]

/-- C7: for every tender with an awarded company, `check_shell_company` at
age = deadline − registration (days) yields weight 20 when age < 30, weight
10 = 20 / 2 when 30 ≤ age < 90, and no factor when age ≥ 90. -/
theorem shell_company_age_brackets (tender : Tender) (w : Company) :
    ((tender.deadline - w.registration_date < 30) →
      ∃ f, check_shell_company tender (some w) = some f ∧ f.weight = 20) ∧
    ((30 ≤ tender.deadline - w.registration_date) →
      (tender.deadline - w.registration_date < 90) →
      ∃ f, check_shell_company tender (some w) = some f ∧
        f.weight = 10 ∧ f.weight = RISK_WEIGHTS .SHELL_COMPANY / 2) ∧
    ((90 ≤ tender.deadline - w.registration_date) →
      check_shell_company tender (some w) = none) := by
  refine ⟨fun h1 => ?_, fun h2 h3 => ?_, fun h4 => ?_⟩
  · dsimp only [check_shell_company]
    rw [if_pos h1]
    exact ⟨_, rfl, rfl⟩
  · dsimp only [check_shell_company]
    rw [if_neg (by omega), if_pos h3]
    exact ⟨_, rfl, rfl, rfl⟩
  · dsimp only [check_shell_company]
    rw [if_neg (by omega), if_neg (by omega)]

/-- Witness for C7 at the claim's boundary ages 29, 30, 89, 90. -/
theorem shell_company_age_brackets_witness :
    (((29 : Int) - 0 < 30) ∧
      ∃ f, check_shell_company ({ id := "t", deadline := 29 } : Tender)
        (some { id := "c", name := "C", registration_date := 0 }) = some f ∧ f.weight = 20) ∧
    ((30 ≤ (30 : Int) - 0) ∧ ((30 : Int) - 0 < 90) ∧
      ∃ f, check_shell_company ({ id := "t", deadline := 30 } : Tender)
        (some { id := "c", name := "C", registration_date := 0 }) = some f ∧
        f.weight = 10 ∧ f.weight = RISK_WEIGHTS .SHELL_COMPANY / 2) ∧
    ((30 ≤ (89 : Int) - 0) ∧ ((89 : Int) - 0 < 90) ∧
      ∃ f, check_shell_company ({ id := "t", deadline := 89 } : Tender)
        (some { id := "c", name := "C", registration_date := 0 }) = some f ∧
        f.weight = 10 ∧ f.weight = RISK_WEIGHTS .SHELL_COMPANY / 2) ∧
    ((90 ≤ (90 : Int) - 0) ∧
      check_shell_company ({ id := "t", deadline := 90 } : Tender)
        (some { id := "c", name := "C", registration_date := 0 }) = none) := by
  refine ⟨⟨by decide, ?_⟩, ⟨by decide, by decide, ?_⟩, ⟨by decide, by decide, ?_⟩,
    ⟨by decide, ?_⟩⟩
  · exact (shell_company_age_brackets _ _).1 (by decide)
  · exact (shell_company_age_brackets _ _).2.1 (by decide) (by decide)
  · exact (shell_company_age_brackets _ _).2.1 (by decide) (by decide)
  · exact (shell_company_age_brackets _ _).2.2 (by decide)

/-- C10: a winner registered after the tender deadline (negative age) still
takes the severe branch of `check_shell_company`: full weight 20, with the
negative day count in the description and in the evidence. -/
theorem shell_company_negative_age (tender : Tender) (w : Company)
    (h : tender.deadline - w.registration_date < 0) :
    ∃ f, check_shell_company tender (some w) = some f ∧
      f.weight = 20 ∧
      f.description = "Winning company registered only " ++
        toString (tender.deadline - w.registration_date) ++
        " days before tender deadline" ∧
      ("Company age at deadline: " ++ toString (tender.deadline - w.registration_date) ++
        " days") ∈ f.evidence := by
  dsimp only [check_shell_company]
  rw [if_pos (by omega)]
  exact ⟨_, rfl, rfl, rfl, by simp⟩

/-- Witness for C10 at age = −5. -/
theorem shell_company_negative_age_witness :
    ((5 : Int) - 10 < 0) ∧
    ∃ f, check_shell_company ({ id := "t", deadline := 5 } : Tender)
        (some { id := "c", name := "C", registration_date := 10 }) = some f ∧
      f.weight = 20 ∧
      f.description = "Winning company registered only " ++ toString ((5 : Int) - 10) ++
        " days before tender deadline" ∧
      ("Company age at deadline: " ++ toString ((5 : Int) - 10) ++ " days") ∈ f.evidence :=
  ⟨by decide, shell_company_negative_age ({ id := "t", deadline := 5 } : Tender)
    { id := "c", name := "C", registration_date := 10 } (by decide)⟩

/-- C9: with a truthy awarded amount and estimated value, the price-anomaly
factor fires iff awarded/estimated strictly exceeds 3/2, and the reported
percent above estimate is the floor of (ratio − 1) × 100. -/
theorem price_anomaly_threshold_and_floor (tender : Tender) (a : ℚ)
    (all_tenders : List Tender)
    (ha : tender.awarded_amount = some a) (ha0 : a ≠ 0)
    (he0 : tender.estimated_value ≠ 0) :
    ((check_price_anomaly tender all_tenders).isSome =
      decide (3/2 < a / tender.estimated_value)) ∧
    (∀ f, check_price_anomaly tender all_tenders = some f →
      f.weight = 15 ∧
      f.description = "Contract awarded at " ++
        toString (⌊(a / tender.estimated_value - 1) * 100⌋) ++ "% above estimated value") := by
  dsimp only [check_price_anomaly]
  rw [ha]
  dsimp only
  rw [if_neg (by tauto)]
  by_cases hr : (3/2 : ℚ) < a / tender.estimated_value
  · rw [if_pos hr]
    refine ⟨by simp [hr], fun f hf => ?_⟩
    have hfloor : pyInt ((a / tender.estimated_value - 1) * 100) =
        ⌊(a / tender.estimated_value - 1) * 100⌋ := by
      apply pyInt_eq_floor_of_nonneg
      nlinarith [hr]
    split_ifs at hf <;>
      (injection hf with hf2; subst hf2; exact ⟨rfl, by rw [hfloor]⟩)
  · rw [if_neg hr]
    exact ⟨by simp [hr], fun f hf => by simp at hf⟩

/-- Witness for C9 at awarded 151, estimated 100 (the spec's ratio-1.51
example). -/
theorem price_anomaly_threshold_and_floor_witness :
    (({ id := "t", estimated_value := 100, awarded_amount := some 151 } :
        Tender).awarded_amount = some 151) ∧
    ((151 : ℚ) ≠ 0) ∧
    ((({ id := "t", estimated_value := 100, awarded_amount := some 151 } :
        Tender).estimated_value) ≠ 0) ∧
    (((check_price_anomaly
        ({ id := "t", estimated_value := 100, awarded_amount := some 151 } : Tender)
        []).isSome =
      decide (3/2 < (151 : ℚ) /
        ({ id := "t", estimated_value := 100, awarded_amount := some 151 } :
          Tender).estimated_value)) ∧
    (∀ f, check_price_anomaly
        ({ id := "t", estimated_value := 100, awarded_amount := some 151 } : Tender)
        [] = some f →
      f.weight = 15 ∧
      f.description = "Contract awarded at " ++
        toString (⌊((151 : ℚ) /
          ({ id := "t", estimated_value := 100, awarded_amount := some 151 } :
            Tender).estimated_value - 1) * 100⌋) ++ "% above estimated value")) :=
  ⟨rfl, by decide, by decide,
    price_anomaly_threshold_and_floor _ 151 [] rfl (by decide) (by decide)⟩

/-- C3 (amended): when the price-anomaly factor fires, its evidence carries
the informational category-average note iff at least one comparable exists
AND the awarded amount exceeds 1.5 × the category average; the weight is 15
either way. -/
theorem price_anomaly_category_note (tender : Tender) (a : ℚ)
    (all_tenders : List Tender)
    (ha : tender.awarded_amount = some a) (ha0 : a ≠ 0)
    (he0 : tender.estimated_value ≠ 0)
    (hr : 3/2 < a / tender.estimated_value) :
    ∃ f, check_price_anomaly tender all_tenders = some f ∧
      f.weight = 15 ∧
      f.evidence.length =
        (if categoryComparable tender all_tenders ≠ [] ∧
            categoryAverage tender all_tenders * (3/2) < a then 4 else 3) ∧
      (categoryComparable tender all_tenders ≠ [] ∧
          categoryAverage tender all_tenders * (3/2) < a →
        f.evidence.getLast? = some ("Category average: KES " ++
          fmtQ (categoryAverage tender all_tenders))) := by
  dsimp only [check_price_anomaly]
  rw [ha]
  dsimp only
  rw [if_neg (by tauto), if_pos hr]
  simp only [categoryComparable, categoryAverage]
  by_cases hc : all_tenders.filter (comparableTo tender) = []
  · rw [if_neg (by simp [hc])]
    rw [if_neg (by simp [hc])]
    exact ⟨_, rfl, rfl, rfl, by simp [hc]⟩
  · rw [if_pos (by simpa using hc)]
    by_cases hv :
        ((all_tenders.filter (comparableTo tender)).map (fun t => t.awarded_amount.getD 0)).sum /
          (((all_tenders.filter (comparableTo tender)).length : ℚ)) * (3/2) < a
    · rw [if_pos hv, if_pos ⟨hc, hv⟩]
      refine ⟨_, rfl, rfl, by simp, fun _ => ?_⟩
      simp [List.getLast?_concat]
    · rw [if_neg hv, if_neg (by tauto)]
      exact ⟨_, rfl, rfl, rfl, fun hcv => absurd hcv.2 hv⟩

/-- Sample tender for the C3 counterexample: ratio 160/100 > 1.5. -/
def c3Tender : Tender :=
  { id := "t1", category := "C", estimated_value := 100, status := .AWARDED,
    awarded_amount := some 160 }

/-- A comparable awarded tender in the same category with average 200. -/
def c3Other : Tender :=
  { id := "t2", category := "C", estimated_value := 100, status := .AWARDED,
    awarded_amount := some 200 }

/-- At the C3 counterexample input the comparable list is exactly the other
tender. -/
theorem c3comparable : categoryComparable c3Tender [c3Tender, c3Other] = [c3Other] := by
  decide

/-- The category average at the C3 counterexample input is 200. -/
theorem c3avg : categoryAverage c3Tender [c3Tender, c3Other] = 200 := by
  rw [categoryAverage, c3comparable]
  norm_num [c3Other]

/-- Counterexample to C3 as stated: one comparable awarded tender exists in
the category and the ratio exceeds 1.5, yet the emitted factor's evidence
does NOT carry the category-average note (the code additionally requires
awarded > 1.5 × category average, and 160 ≤ 300). -/
theorem price_anomaly_note_counterexample :
    (categoryComparable c3Tender [c3Tender, c3Other]).length = 1 ∧
    (3/2 : ℚ) < 160 / 100 ∧
    ∃ f, check_price_anomaly c3Tender [c3Tender, c3Other] = some f ∧
      ("Category average: KES " ++ fmtQ (categoryAverage c3Tender [c3Tender, c3Other]))
        ∉ f.evidence := by
  refine ⟨by rw [c3comparable]; rfl, by norm_num, ?_⟩
  have hr : (3/2 : ℚ) < (160 : ℚ) / 100 := by norm_num
  have hv : ¬ (((200 : ℚ)) * (3/2) < 160) := by norm_num
  have hcomp : List.filter (comparableTo c3Tender) [c3Tender, c3Other] = [c3Other] :=
    c3comparable
  have hp : pyInt (((160 : ℚ)/100 - 1) * 100) = 60 := by
    rw [show (((160 : ℚ)/100 - 1) * 100) = 60 by norm_num]
    rw [pyInt, if_pos (by norm_num)]
    rw [show ((60 : ℚ)) = ((60 : ℤ) : ℚ) by norm_num, Int.floor_intCast]
  have havg2 : (([c3Other].map (fun t => t.awarded_amount.getD 0)).sum /
      (([c3Other].length : ℚ))) = 200 := by norm_num [c3Other]
  dsimp only [check_price_anomaly]
  rw [show c3Tender.awarded_amount = some 160 from rfl]
  dsimp only
  rw [show c3Tender.estimated_value = (100 : ℚ) from rfl]
  rw [if_neg (by norm_num), if_pos hr, hcomp, if_pos (by simp), havg2, if_neg hv, hp, c3avg]
  exact ⟨_, rfl, by decide⟩

/-- Sample tender for the C3 witness: awarded 400 exceeds 1.5 × category
average 200, so the note is appended. -/
def c3wTender : Tender :=
  { id := "t1", category := "C", estimated_value := 100, status := .AWARDED,
    awarded_amount := some 400 }

/-- Witness for the amended C3 at an input where the note IS appended
(awarded 400 > 1.5 × category average 200). -/
theorem price_anomaly_category_note_witness :
    (c3wTender.awarded_amount = some 400) ∧
    ((400 : ℚ) ≠ 0) ∧
    (c3wTender.estimated_value ≠ 0) ∧
    ((3/2 : ℚ) < (400 : ℚ) / c3wTender.estimated_value) ∧
    ∃ f, check_price_anomaly c3wTender [c3wTender, c3Other] = some f ∧
      f.weight = 15 ∧
      f.evidence.length =
        (if categoryComparable c3wTender [c3wTender, c3Other] ≠ [] ∧
            categoryAverage c3wTender [c3wTender, c3Other] * (3/2) < 400 then 4 else 3) ∧
      (categoryComparable c3wTender [c3wTender, c3Other] ≠ [] ∧
          categoryAverage c3wTender [c3wTender, c3Other] * (3/2) < 400 →
        f.evidence.getLast? = some ("Category average: KES " ++
          fmtQ (categoryAverage c3wTender [c3wTender, c3Other]))) :=
  ⟨rfl, by decide, by decide, by norm_num [c3wTender],
    price_anomaly_category_note _ 400 _ rfl (by decide) (by decide)
      (by norm_num [c3wTender])⟩

/-- Numeric value of a digit string (the claim's "numeric value of the
digit token"; leading zeros do not change it). -/
def numericValue (s : String) : Nat :=
  s.data.foldl (fun n c => 10 * n + (c.toNat - 48)) 0

/-- C8 (amended): `_addresses_similar` is true iff both addresses yield a
plot digit token and the tokens are equal AS STRINGS (not as numeric
values); the relation is symmetric, "Plot 45, X" matches "Plot 45B, Y",
and "Plot 45" does not match "Plot 46". -/
theorem addresses_similar_characterization :
    (∀ a b, addresses_similar a b = addresses_similar b a) ∧
    (addresses_similar "Plot 45, X" "Plot 45B, Y" = true) ∧
    (addresses_similar "Plot 45" "Plot 46" = false) ∧
    (∀ a b, addresses_similar a b = true ↔
      ∃ d, plotNumber a = some d ∧ plotNumber b = some d) := by
  refine ⟨fun a b => ?_, by decide, by decide, fun a b => ?_⟩
  · unfold addresses_similar
    cases h1 : plotNumber a <;> cases h2 : plotNumber b <;> simp [eq_comm]
  · unfold addresses_similar
    cases h1 : plotNumber a <;> cases h2 : plotNumber b <;> simp [eq_comm]

/-- Counterexample to C8 as stated: "plot 045" and "plot 45" carry plot
tokens with EQUAL numeric values, yet `_addresses_similar` is false — the
code compares the captured digit strings, not their numeric values. -/
theorem addresses_similar_leading_zeros_counterexample :
    plotNumber "plot 045" = some "045" ∧
    plotNumber "plot 45" = some "45" ∧
    numericValue "045" = numericValue "45" ∧
    addresses_similar "plot 045" "plot 45" = false := by
  decide

/-- C2: `find_conflict_path` raises `NodeNotFound` (modelled `.error ()`)
when an endpoint is absent from the graph — only `NetworkXNoPath` is
caught — while a disconnected pair of present nodes does return the
explicit no-path result. -/
theorem find_conflict_path_absent_node_raises :
    find_conflict_path { nodes := ["a"], edges := [] } "x" "a" = .error () ∧
    find_conflict_path { nodes := ["a", "b"], edges := [] } "a" "b" = .ok none :=
  ⟨rfl, rfl⟩

/-! ## C4: RelatedTo edges of the graph build -/

/-- Every director-loop edge is a `DIRECTOR_OF` edge. -/
theorem mem_directorOfEdges {companies : List Company} {d : Director} {e : EdgeRec}
    (h : e ∈ directorOfEdges companies d) : e.relationship = .DIRECTOR_OF := by
  obtain ⟨cid, _, hc⟩ := List.mem_filterMap.mp h
  split_ifs at hc
  injection hc with hc; subst hc; rfl

/-- Inversion for the officials loop: a member of `relatedToEdges` comes
from a related-person entry found in the directors map. -/
theorem mem_relatedToEdges {directors : List Director} {o : PublicOfficial} {e : EdgeRec}
    (h : e ∈ relatedToEdges directors o) :
    ∃ pr ∈ o.related_persons,
      e = { src := o.id, dst := pr.1, relationship := .RELATED_TO,
            suspicious := true, relTag := some pr.2.value } ∧
      (directors.find? (fun d => d.id = pr.1)).isSome := by
  obtain ⟨pr, hpr, hc⟩ := List.mem_filterMap.mp h
  split_ifs at hc with hd
  injection hc with hc; subst hc; exact ⟨pr, hpr, rfl, hd⟩

/-- Every tender-loop edge is an `AWARDED_BY` edge. -/
theorem mem_awardedByEdges {officials : List PublicOfficial} {t : Tender} {e : EdgeRec}
    (h : e ∈ awardedByEdges officials t) : e.relationship = .AWARDED_BY := by
  unfold awardedByEdges at h
  rcases ho : t.procurement_officer_id with _ | offId
  · rw [ho] at h
    simp at h
  · rw [ho] at h
    dsimp only at h
    split_ifs at h
    case pos =>
      simp only [List.mem_singleton] at h
      subst h
      rfl
    case neg => simp at h

/-- Every bid-loop edge is a `WON` or `BID_ON` edge. -/
theorem mem_bidEdge {tenders : List Tender} {companies : List Company} {b : Bid} {e : EdgeRec}
    (h : bidEdge tenders companies b = some e) :
    e.relationship = .WON ∨ e.relationship = .BID_ON := by
  unfold bidEdge at h
  split_ifs at h
  rcases ht : tenders.find? (fun t => t.id = b.tender_id) with _ | tender <;> rw [ht] at h <;>
    dsimp only at h
  · simp at h
  · injection h with h; subst h
    by_cases hw : tender.awarded_to = some b.company_id
    · left; simp [hw]
    · right; simp [hw]

/-- Every shared-address edge is a `SHARES_ADDRESS` edge. -/
theorem mem_sharedAddressEdges {e : EdgeRec} :
    ∀ {l : List Company}, e ∈ sharedAddressEdges l → e.relationship = .SHARES_ADDRESS := by
  intro l
  induction l with
  | nil => intro h; simp [sharedAddressEdges] at h
  | cons c rest ih =>
    intro h
    rw [sharedAddressEdges] at h
    rcases List.mem_append.mp h with h | h
    · obtain ⟨c2, _, hc⟩ := List.mem_filterMap.mp h
      split_ifs at hc
      injection hc with hc; subst hc; rfl
    · exact ih h

/-- Every shared-phone edge is a `SHARES_PHONE` edge. -/
theorem mem_sharedPhoneEdges {e : EdgeRec} :
    ∀ {l : List Company}, e ∈ sharedPhoneEdges l → e.relationship = .SHARES_PHONE := by
  intro l
  induction l with
  | nil => intro h; simp [sharedPhoneEdges] at h
  | cons c rest ih =>
    intro h
    rw [sharedPhoneEdges] at h
    rcases List.mem_append.mp h with h | h
    · obtain ⟨c2, _, hc⟩ := List.mem_filterMap.mp h
      split_ifs at hc
      injection hc with hc; subst hc; rfl
    · exact ih h

/-- C4 (amended): `build_procurement_graph` adds a suspicious `RELATED_TO`
edge, tagged with the relationship kind, for exactly those related-person
identifiers of each official that are present in the DIRECTORS map;
identifiers absent from the directors map are skipped silently even when
they are present in another entity map. -/
theorem build_graph_related_to_edges (tenders : List Tender) (companies : List Company)
    (directors : List Director) (officials : List PublicOfficial) (bids : List Bid) :
    (∀ o ∈ officials, ∀ pr ∈ o.related_persons,
      (directors.find? (fun d => d.id = pr.1)).isSome →
      ({ src := o.id, dst := pr.1, relationship := .RELATED_TO, suspicious := true,
         relTag := some pr.2.value } : EdgeRec) ∈
        (build_procurement_graph tenders companies directors officials bids).edges) ∧
    (∀ e ∈ (build_procurement_graph tenders companies directors officials bids).edges,
      e.relationship = .RELATED_TO →
      ∃ o ∈ officials, ∃ pr ∈ o.related_persons,
        e.src = o.id ∧ e.dst = pr.1 ∧ e.suspicious = true ∧ e.relTag = some pr.2.value ∧
        (directors.find? (fun d => d.id = pr.1)).isSome) := by
  constructor
  · intro o ho pr hpr hd
    dsimp only [build_procurement_graph]
    refine List.mem_append_left _ (List.mem_append_left _ (List.mem_append_left _
      (List.mem_append_left _ (List.mem_append_right _ ?_))))
    refine List.mem_flatMap.mpr ⟨o, ho, ?_⟩
    exact List.mem_filterMap.mpr ⟨pr, hpr, by rw [if_pos hd]⟩
  · intro e he hrel
    dsimp only [build_procurement_graph] at he
    rcases List.mem_append.mp he with he | he6
    rcases List.mem_append.mp he with he | he5
    rcases List.mem_append.mp he with he | he4
    rcases List.mem_append.mp he with he | he3
    rcases List.mem_append.mp he with he1 | he2
    · obtain ⟨d, _, hd⟩ := List.mem_flatMap.mp he1
      rw [mem_directorOfEdges hd] at hrel; exact absurd hrel (by simp)
    · obtain ⟨o, ho, hd⟩ := List.mem_flatMap.mp he2
      obtain ⟨pr, hpr, he, hfind⟩ := mem_relatedToEdges hd
      subst he
      exact ⟨o, ho, pr, hpr, rfl, rfl, rfl, rfl, hfind⟩
    · obtain ⟨t, _, hd⟩ := List.mem_flatMap.mp he3
      rw [mem_awardedByEdges hd] at hrel; exact absurd hrel (by simp)
    · obtain ⟨b, _, hd⟩ := List.mem_filterMap.mp he4
      rcases mem_bidEdge hd with h | h <;> (rw [h] at hrel; exact absurd hrel (by simp))
    · rw [mem_sharedAddressEdges he5] at hrel; exact absurd hrel (by simp)
    · rw [mem_sharedPhoneEdges he6] at hrel; exact absurd hrel (by simp)

/-- Official whose related person "off2" is an official, not a director. -/
def c4Off1 : PublicOfficial :=
  { id := "off1", name := "O1", related_persons := [("off2", .SPOUSE)] }
/-- The related person: present in the officials map only. -/
def c4Off2 : PublicOfficial := { id := "off2", name := "O2" }

/-- Counterexample to C4 as stated: "off2" is present in a provided entity
map (the officials map) and listed in off1's related-person map, yet the
built graph contains NO edge at all — the code only consults the directors
map. -/
theorem related_to_skips_non_director_counterexample :
    ((([c4Off1, c4Off2] : List PublicOfficial).find? (fun o => o.id = "off2")).isSome = true) ∧
    (("off2", RelationshipType.SPOUSE) ∈ c4Off1.related_persons) ∧
    ((build_procurement_graph [] [] [] [c4Off1, c4Off2] []).edges = []) := by
  refine ⟨by decide, by decide, ?_⟩
  decide

/-- Director and official for the C4 witness. -/
def c4wDir : Director := { id := "d1", name := "D1" }

/-- Official related to director "d1" for the C4 witness. -/
def c4wOff : PublicOfficial :=
  { id := "o1", name := "O1", related_persons := [("d1", .SIBLING)] }

/-- Witness for the amended C4: with one director and one official related
to them, the suspicious tagged RelatedTo edge is in the built graph. -/
theorem build_graph_related_to_edges_witness :
    (c4wOff ∈ [c4wOff]) ∧ (("d1", RelationshipType.SIBLING) ∈ c4wOff.related_persons) ∧
    ((([c4wDir] : List Director).find? (fun d => d.id = "d1")).isSome = true) ∧
    ({ src := "o1", dst := "d1", relationship := .RELATED_TO, suspicious := true,
       relTag := some RelationshipType.SIBLING.value } : EdgeRec) ∈
      (build_procurement_graph [] [] [c4wDir] [c4wOff] []).edges :=
  ⟨by decide, by decide, by decide,
    (build_graph_related_to_edges [] [] [c4wDir] [c4wOff] []).1 c4wOff (by decide)
      ("d1", RelationshipType.SIBLING) (by decide) (by decide)⟩

/-! ## C6: cartel detection -/

/-- Membership in the deduplication accumulator pass. -/
theorem mem_dedupFirstAux :
    ∀ {l seen : List String} {y : String},
      y ∈ dedupFirstAux seen l ↔ y ∈ l ∧ y ∉ seen := by
  intro l
  induction l with
  | nil => intro seen y; simp [dedupFirstAux]
  | cons x xs ih =>
    intro seen y
    rw [dedupFirstAux]
    split_ifs with hx
    · rw [ih]
      constructor
      · rintro ⟨h1, h2⟩; exact ⟨List.mem_cons_of_mem _ h1, h2⟩
      · rintro ⟨h1, h2⟩
        rcases List.mem_cons.mp h1 with rfl | h1
        · exact absurd hx h2
        · exact ⟨h1, h2⟩
    · constructor
      · intro h
        rcases List.mem_cons.mp h with rfl | h
        · exact ⟨List.mem_cons_self _ _, hx⟩
        · obtain ⟨h1, h2⟩ := ih.mp h
          refine ⟨List.mem_cons_of_mem _ h1, fun hs => h2 (List.mem_cons_of_mem _ hs)⟩
      · rintro ⟨h1, h2⟩
        rcases List.mem_cons.mp h1 with rfl | h1
        · exact List.mem_cons_self _ _
        · by_cases hyx : y = x
          · subst hyx; exact List.mem_cons_self _ _
          · exact List.mem_cons_of_mem _ (ih.mpr ⟨h1, by simp [hyx, h2]⟩)

/-- `dedupFirst` preserves membership. -/
theorem mem_dedupFirst {l : List String} {y : String} :
    y ∈ dedupFirst l ↔ y ∈ l := by
  rw [dedupFirst, mem_dedupFirstAux]
  simp

/-- The accumulator pass yields no duplicates. -/
theorem nodup_dedupFirstAux :
    ∀ {l seen : List String}, (dedupFirstAux seen l).Nodup := by
  intro l
  induction l with
  | nil => intro seen; simp [dedupFirstAux]
  | cons x xs ih =>
    intro seen
    rw [dedupFirstAux]
    split_ifs with hx
    · exact ih
    · refine List.nodup_cons.mpr ⟨fun hmem => ?_, ih⟩
      exact (mem_dedupFirstAux.mp hmem).2 (List.mem_cons_self _ _)

/-- `dedupFirst` yields no duplicates. -/
theorem nodup_dedupFirst {l : List String} : (dedupFirst l).Nodup :=
  nodup_dedupFirstAux

/-- Two sorted pairs coincide iff the unordered pairs coincide. -/
theorem sortPair_eq_iff (x y a b : String) :
    sortPair x y = sortPair a b ↔ (x = a ∧ y = b) ∨ (x = b ∧ y = a) := by
  unfold sortPair
  split_ifs with h1 h2 h2 <;> simp only [Prod.mk.injEq] <;> constructor
  · exact fun h => Or.inl h
  · rintro (⟨rfl, rfl⟩ | ⟨rfl, rfl⟩)
    · exact ⟨rfl, rfl⟩
    · exact ⟨le_antisymm h1 h2, le_antisymm h2 h1⟩
  · rintro ⟨rfl, rfl⟩; exact Or.inr ⟨rfl, rfl⟩
  · rintro (⟨rfl, rfl⟩ | ⟨rfl, rfl⟩)
    · exact absurd h1 h2
    · exact ⟨rfl, rfl⟩
  · rintro ⟨rfl, rfl⟩; exact Or.inr ⟨rfl, rfl⟩
  · rintro (⟨rfl, rfl⟩ | ⟨rfl, rfl⟩)
    · exact absurd h2 h1
    · exact ⟨rfl, rfl⟩
  · rintro ⟨rfl, rfl⟩; exact Or.inl ⟨rfl, rfl⟩
  · rintro (⟨rfl, rfl⟩ | ⟨rfl, rfl⟩)
    · exact ⟨rfl, rfl⟩
    · rcases le_total x y with h | h
      · exact absurd h h1
      · exact absurd h h2

/-- Occurrences of a sorted pair among the pairs `{x, y}` for `y` ranging
over a duplicate-free list not containing `x`. -/
theorem count_map_sortPair {x a b : String} :
    ∀ {xs : List String}, xs.Nodup → x ∉ xs →
      ((xs.map (sortPair x)).count (sortPair a b)) =
        if (x = a ∧ b ∈ xs) ∨ (x = b ∧ a ∈ xs) then 1 else 0 := by
  intro xs
  induction xs with
  | nil => intro _ _; simp
  | cons y ys ih =>
    intro hnd hx
    have hxy : x ≠ y := by rintro rfl; exact hx (List.mem_cons_self _ _)
    have hxys : x ∉ ys := fun h => hx (List.mem_cons_of_mem _ h)
    obtain ⟨hyys, hysnd⟩ := List.nodup_cons.mp hnd
    rw [List.map_cons, List.count_cons, ih hysnd hxys]
    simp only [beq_iff_eq]
    by_cases h1 : sortPair x y = sortPair a b
    · rw [if_pos h1]
      rcases (sortPair_eq_iff x y a b).mp h1 with ⟨rfl, rfl⟩ | ⟨rfl, rfl⟩
      · simp [hxy, hyys, List.mem_cons]
      · simp [hxy, hyys, List.mem_cons, Ne.symm hxy]
    · rw [if_neg h1]
      have hiff : ((x = a ∧ b ∈ ys) ∨ (x = b ∧ a ∈ ys)) ↔
          ((x = a ∧ b ∈ y :: ys) ∨ (x = b ∧ a ∈ y :: ys)) := by
        constructor
        · rintro (⟨rfl, hb⟩ | ⟨rfl, ha⟩)
          · exact Or.inl ⟨rfl, List.mem_cons_of_mem _ hb⟩
          · exact Or.inr ⟨rfl, List.mem_cons_of_mem _ ha⟩
        · rintro (⟨rfl, hb⟩ | ⟨rfl, ha⟩)
          · rcases List.mem_cons.mp hb with rfl | hb
            · exact absurd ((sortPair_eq_iff x b x b).mpr (Or.inl ⟨rfl, rfl⟩)) h1
            · exact Or.inl ⟨rfl, hb⟩
          · rcases List.mem_cons.mp ha with rfl | ha
            · exact absurd ((sortPair_eq_iff x a a x).mpr (Or.inr ⟨rfl, rfl⟩)) h1
            · exact Or.inr ⟨rfl, ha⟩
      rw [if_congr hiff rfl rfl]
      omega

/-- The `i < j` pair loop over a duplicate-free bidder list counts each
unordered pair of distinct present bidders exactly once. -/
theorem count_pairsOf :
    ∀ {l : List String}, l.Nodup → ∀ a b,
      (pairsOf l).count (sortPair a b) = if a ∈ l ∧ b ∈ l ∧ a ≠ b then 1 else 0 := by
  intro l
  induction l with
  | nil => intro _ a b; simp [pairsOf]
  | cons x xs ih =>
    intro hnd a b
    obtain ⟨hx, hxs⟩ := List.nodup_cons.mp hnd
    rw [pairsOf, List.count_append, count_map_sortPair hxs hx, ih hxs a b]
    by_cases hxa : x = a <;> by_cases hxb : x = b <;> by_cases hain : a ∈ xs <;>
      by_cases hbin : b ∈ xs <;> by_cases hab : a = b <;>
      simp_all [List.mem_cons]
    all_goals first
      | omega
      | (split_ifs with hh <;> simp_all)

/-- Counting over a flatMap is the sum of the per-chunk counts. -/
theorem count_flatMapPairs (f : String → List (String × String)) :
    ∀ (l : List String) (p : String × String),
      (l.flatMap f).count p = (l.map (fun t => (f t).count p)).sum := by
  intro l p
  induction l with
  | nil => simp
  | cons x xs ih => simp [List.flatMap_cons, List.count_append, ih]

/-- A sum of 0/1 indicators is the length of the corresponding filter. -/
theorem sum_ite_filter (P : String → Bool) :
    ∀ l : List String,
      (l.map (fun t => if P t then 1 else 0)).sum = (l.filter P).length := by
  intro l
  induction l with
  | nil => simp
  | cons x xs ih =>
    by_cases h : P x <;> simp [List.filter_cons, h, ih] <;> omega

/-- The `co_bid_counts` entry of an unordered pair equals the number of
distinct tenders on which both companies appear as bidders (0 on the
diagonal). -/
theorem coBidCount_eq (bids : List Bid) (a b : String) :
    coBidCount bids (sortPair a b) =
      if a = b then 0 else coTenderCount bids a b := by
  rw [coBidCount, coBidPairs, count_flatMapPairs]
  have hterm : ∀ tid ∈ tenderIds bids,
      (pairsOf (tenderBidders bids tid)).count (sortPair a b) =
        if a ∈ tenderBidders bids tid ∧ b ∈ tenderBidders bids tid ∧ a ≠ b
        then 1 else 0 := by
    intro tid _
    exact count_pairsOf nodup_dedupFirst a b
  rw [List.map_congr_left hterm]
  by_cases hab : a = b
  · rw [if_pos hab]
    subst hab
    simp
  · rw [if_neg hab, coTenderCount]
    have : ∀ tid,
        (if a ∈ tenderBidders bids tid ∧ b ∈ tenderBidders bids tid ∧ a ≠ b
         then (1 : Nat) else 0) =
        (if (decide (a ∈ tenderBidders bids tid ∧ b ∈ tenderBidders bids tid)) then 1 else 0) := by
      intro tid
      by_cases h : a ∈ tenderBidders bids tid ∧ b ∈ tenderBidders bids tid <;>
        simp [h, hab]
    simp only [this]
    exact sum_ite_filter _ _

/-- C6 (amended, threshold ≥ 1): the auxiliary co-bid graph has an edge
`{a, b}` iff `a ≠ b` and the number of tenders on which both appear as
bidders reaches the threshold, and `find_cartel_clusters` returns exactly
the connected components of that auxiliary graph of size ≥ 3. -/
theorem cartel_threshold_exact_components (bids : List Bid) (min_co_bids : Nat) (hmin : 1 ≤ min_co_bids) :
    (∀ a b, auxEdge bids min_co_bids a b = true ↔
      (a ≠ b ∧ min_co_bids ≤ coTenderCount bids a b)) ∧
    (∀ S, S ∈ find_cartel_clusters bids min_co_bids ↔
      S ∈ connectedComponents bids min_co_bids ∧ 3 ≤ S.ncard) := by
  constructor
  · intro a b
    rw [auxEdge, coBidCount_eq]
    by_cases hab : a = b
    · simp [hab]
    · simp only [if_neg hab, Bool.and_eq_true, decide_eq_true_eq]
      constructor
      · rintro ⟨h1, h2⟩; exact ⟨hab, h2⟩
      · rintro ⟨h1, h2⟩; exact ⟨by omega, h2⟩
  · intro S
    exact Iff.rfl

/-- Counterexample to C6 as stated: at threshold `minCoBids = 0`, a pair
that has co-bid 0 ≥ 0 times still gets NO edge — pairs are only ever drawn
from the co-bid counter dict, which omits pairs that never co-bid. -/
theorem cartel_threshold_zero_counterexample :
    ¬ ((auxEdge ([] : List Bid) 0 "a" "b" = true) ↔
      ("a" ≠ "b" ∧ 0 ≤ coTenderCount [] "a" "b")) := by
  decide

/-- Bid list for the C6 witness: companies "a" and "b" co-bid on tenders
t1, t2, t3. -/
def c6Bids : List Bid :=
  [{ id := "b1", tender_id := "t1", company_id := "a" },
   { id := "b2", tender_id := "t1", company_id := "b" },
   { id := "b3", tender_id := "t2", company_id := "a" },
   { id := "b4", tender_id := "t2", company_id := "b" },
   { id := "b5", tender_id := "t3", company_id := "a" },
   { id := "b6", tender_id := "t3", company_id := "b" }]

/-- Witness for the amended C6 at the default threshold 3. -/
theorem cartel_threshold_exact_components_witness :
    (1 ≤ 3) ∧
    ((∀ a b, auxEdge c6Bids 3 a b = true ↔
      (a ≠ b ∧ 3 ≤ coTenderCount c6Bids a b)) ∧
    (∀ S, S ∈ find_cartel_clusters c6Bids 3 ↔
      S ∈ connectedComponents c6Bids 3 ∧ 3 ≤ S.ncard)) :=
  ⟨by decide, cartel_threshold_exact_components c6Bids 3 (by decide)⟩

/-! ## C5: conflict-of-interest branches -/

/-- Walk existence is monotone in the step bound (one step). -/
theorem walkB_succ (G : Graph) (v : String) :
    ∀ n u, G.walkB v n u = true → G.walkB v (n + 1) u = true := by
  intro n
  induction n with
  | zero =>
    intro u h
    rw [Graph.walkB] at h
    rw [Graph.walkB]
    simp only [decide_eq_true_eq] at h
    simp [h]
  | succ n ih =>
    intro u h
    rw [Graph.walkB] at h
    rw [Graph.walkB]
    simp only [Bool.or_eq_true, decide_eq_true_eq, List.any_eq_true] at h
    simp only [Bool.or_eq_true, decide_eq_true_eq, List.any_eq_true]
    rcases h with h | ⟨w, hw, hwalk⟩
    · exact Or.inl h
    · exact Or.inr ⟨w, hw, ih w hwalk⟩

/-- Walk existence is monotone in the step bound. -/
theorem walkB_mono (G : Graph) (v u : String) {m n : Nat} (hmn : m ≤ n)
    (h : G.walkB v m u = true) : G.walkB v n u = true := by
  induction n with
  | zero => exact (Nat.le_zero.mp hmn) ▸ h
  | succ n ih =>
    rcases Nat.lt_or_ge m (n + 1) with hlt | hge
    · exact walkB_succ G v n u (ih (Nat.lt_succ_iff.mp hlt))
    · rw [← Nat.le_antisymm hmn hge]
      exact h

/-- The director loop returns nothing when no director id is a key of the
related-person map. -/
theorem firstRelatedDirector_eq_none
    {ids : List String} {rel : List (String × RelationshipType)}
    (h : ∀ d ∈ ids, (rel.find? (fun pr => pr.1 = d)).isSome = false) :
    firstRelatedDirector ids rel = none := by
  induction ids with
  | nil => rfl
  | cons d rest ih =>
    rw [firstRelatedDirector]
    rcases hf : rel.find? (fun pr => pr.1 = d) with _ | pr
    · rw [hf]
      exact ih (fun d2 h2 => h d2 (List.mem_cons_of_mem _ h2))
    · have := h d (List.mem_cons_self _ _)
      rw [hf] at this
      simp at this

/-- The director loop returns a hit when some director id is a key of the
related-person map. -/
theorem firstRelatedDirector_isSome
    {ids : List String} {rel : List (String × RelationshipType)}
    (h : ∃ d ∈ ids, (rel.find? (fun pr => pr.1 = d)).isSome = true) :
    ∃ dr, firstRelatedDirector ids rel = some dr := by
  induction ids with
  | nil => obtain ⟨d, hd, _⟩ := h; simp at hd
  | cons d rest ih =>
    rw [firstRelatedDirector]
    rcases hf : rel.find? (fun pr => pr.1 = d) with _ | pr
    · rw [hf]
      obtain ⟨d2, hd2, hs⟩ := h
      rcases List.mem_cons.mp hd2 with rfl | hd2
      · rw [hf] at hs; simp at hs
      · exact ih ⟨d2, hd2, hs⟩
    · rw [hf]
      exact ⟨(d, pr.2), rfl⟩

/-- C5: with an awarded company and an officer id that resolves (and both
endpoints present in the graph, as the pipeline guarantees): a director of
the winner appearing in the official's related-person map yields the direct
factor at weight 30 whose description names the relationship kind;
otherwise a path of at most 4 nodes (≤ 3 hops) yields the indirect factor
at weight 20; otherwise no factor. -/
theorem conflict_of_interest_branches (tender : Tender) (w : Company) (directors : List Director)
    (officials : List PublicOfficial) (G : Graph) (offId : String)
    (official : PublicOfficial)
    (hoff : tender.procurement_officer_id = some offId)
    (hne : ¬ offId = "")
    (hfind : officials.find? (fun o => o.id = offId) = some official)
    (hwnode : w.id ∈ G.nodes) (hofnode : offId ∈ G.nodes) :
    ((∃ d ∈ w.director_ids,
        (official.related_persons.find? (fun pr => pr.1 = d)).isSome = true) →
      ∃ dr, firstRelatedDirector w.director_ids official.related_persons = some dr ∧
        check_conflict_of_interest tender (some w) directors officials G =
          .ok (some (coiDirectFactor directors official w dr)) ∧
        (coiDirectFactor directors official w dr).weight = 30 ∧
        (coiDirectFactor directors official w dr).description =
          "Winning vendor\x27s director " ++
          (match directors.find? (fun d => d.id = dr.1) with
           | some d => d.name
           | none => "Unknown") ++
          " is " ++ dr.2.human ++ " of Procurement Officer " ++ official.name) ∧
    ((∀ d ∈ w.director_ids,
        (official.related_persons.find? (fun pr => pr.1 = d)).isSome = false) →
      (G.walkB offId 3 w.id = true →
        ∃ len, check_conflict_of_interest tender (some w) directors officials G =
          .ok (some (coiIndirectFactor len)) ∧ len ≤ 4 ∧
          (coiIndirectFactor len).weight = 20) ∧
      (G.walkB offId 3 w.id = false →
        check_conflict_of_interest tender (some w) directors officials G = .ok none)) := by
  constructor
  · intro hex
    obtain ⟨dr, hdr⟩ := firstRelatedDirector_isSome hex
    refine ⟨dr, hdr, ?_, rfl, rfl⟩
    dsimp only [check_conflict_of_interest]
    rw [hoff]
    dsimp only
    rw [if_neg hne, hfind]
    dsimp only
    rw [hdr]
  · intro hall
    have hnone : firstRelatedDirector w.director_ids official.related_persons = none :=
      firstRelatedDirector_eq_none hall
    have hmem : w.id ∈ G.nodes ∧ offId ∈ G.nodes := ⟨hwnode, hofnode⟩
    constructor
    · intro h3
      have hbound : G.walkB offId (G.spBound) w.id = true :=
        walkB_mono G offId w.id (by rw [Graph.spBound]; omega) h3
      have hlen : Nat.find (⟨G.spBound, hbound⟩ : ∃ n, G.walkB offId n w.id = true) ≤ 3 :=
        Nat.find_le h3
      refine ⟨Nat.find (⟨G.spBound, hbound⟩ : ∃ n, G.walkB offId n w.id = true) + 1,
        ?_, by omega, rfl⟩
      dsimp only [check_conflict_of_interest]
      rw [hoff]
      dsimp only
      rw [if_neg hne, hfind]
      dsimp only
      rw [hnone]
      dsimp only [find_conflict_path]
      rw [if_pos hmem, Graph.spLen, dif_pos hbound]
      dsimp only [Option.map]
      rw [if_pos (by omega)]
    · intro h3
      dsimp only [check_conflict_of_interest]
      rw [hoff]
      dsimp only
      rw [if_neg hne, hfind]
      dsimp only
      rw [hnone]
      dsimp only [find_conflict_path]
      rw [if_pos hmem, Graph.spLen]
      by_cases hb : G.walkB offId (G.spBound) w.id = true
      · rw [dif_pos hb]
        dsimp only [Option.map]
        have hfs := Nat.find_spec (⟨G.spBound, hb⟩ : ∃ n, G.walkB offId n w.id = true)
        have hgt : ¬ Nat.find (⟨G.spBound, hb⟩ : ∃ n, G.walkB offId n w.id = true) ≤ 3 := by
          intro hle
          exact absurd (walkB_mono G offId w.id hle hfs) (by rw [h3]; simp)
        rw [if_neg (by omega)]
      · rw [dif_neg hb]
        rfl

/-- Concrete entities for the C5 witness. -/
def c5Tender : Tender := { id := "t1", procurement_officer_id := some "o1" }

/-- Winning company for the C5 witness. -/
def c5Winner : Company :=
  { id := "c1", name := "Acme", registration_date := 0, director_ids := ["d1"] }

/-- Official related to the winner's director for the C5 witness. -/
def c5Official : PublicOfficial :=
  { id := "o1", name := "Olga", related_persons := [("d1", .SPOUSE)] }

/-- Witness for C5: hypotheses discharged at a concrete tender, winner,
official and two-node graph. -/
theorem conflict_of_interest_branches_witness :
    (c5Tender.procurement_officer_id = some "o1") ∧
    (¬ ("o1" : String) = "") ∧
    (([c5Official].find? (fun o => o.id = "o1")) = some c5Official) ∧
    (c5Winner.id ∈ ({ nodes := ["c1", "o1"], edges := [] } : Graph).nodes) ∧
    (("o1" : String) ∈ ({ nodes := ["c1", "o1"], edges := [] } : Graph).nodes) ∧
    (((∃ d ∈ c5Winner.director_ids,
        (c5Official.related_persons.find? (fun pr => pr.1 = d)).isSome = true) →
      ∃ dr, firstRelatedDirector c5Winner.director_ids c5Official.related_persons = some dr ∧
        check_conflict_of_interest c5Tender (some c5Winner) [] [c5Official]
            { nodes := ["c1", "o1"], edges := [] } =
          .ok (some (coiDirectFactor [] c5Official c5Winner dr)) ∧
        (coiDirectFactor [] c5Official c5Winner dr).weight = 30 ∧
        (coiDirectFactor [] c5Official c5Winner dr).description =
          "Winning vendor\x27s director " ++
          (match ([] : List Director).find? (fun d => d.id = dr.1) with
           | some d => d.name
           | none => "Unknown") ++
          " is " ++ dr.2.human ++ " of Procurement Officer " ++ c5Official.name) ∧
    ((∀ d ∈ c5Winner.director_ids,
        (c5Official.related_persons.find? (fun pr => pr.1 = d)).isSome = false) →
      (({ nodes := ["c1", "o1"], edges := [] } : Graph).walkB "o1" 3 c5Winner.id = true →
        ∃ len, check_conflict_of_interest c5Tender (some c5Winner) [] [c5Official]
            { nodes := ["c1", "o1"], edges := [] } =
          .ok (some (coiIndirectFactor len)) ∧ len ≤ 4 ∧
          (coiIndirectFactor len).weight = 20) ∧
      (({ nodes := ["c1", "o1"], edges := [] } : Graph).walkB "o1" 3 c5Winner.id = false →
        check_conflict_of_interest c5Tender (some c5Winner) [] [c5Official]
            { nodes := ["c1", "o1"], edges := [] } = .ok none))) :=
  ⟨rfl, by decide, by decide, by decide, by decide,
    conflict_of_interest_branches c5Tender c5Winner [] [c5Official]
      { nodes := ["c1", "o1"], edges := [] } "o1" c5Official rfl (by decide) (by decide)
      (by decide) (by decide)⟩

/-! ## C1: overall score and category -/

/-- Cap-and-categorise arithmetic of the score aggregator, for any factor
weight sum `S`. -/
theorem category_spec (S : Nat) :
    min S 100 = min 100 S ∧
    min S 100 ≤ 100 ∧
    ((if 50 ≤ min S 100 then RiskCategory.HIGH
      else if 25 ≤ min S 100 then RiskCategory.MEDIUM else RiskCategory.LOW) =
        RiskCategory.HIGH ↔ 50 ≤ min S 100) ∧
    ((if 50 ≤ min S 100 then RiskCategory.HIGH
      else if 25 ≤ min S 100 then RiskCategory.MEDIUM else RiskCategory.LOW) =
        RiskCategory.MEDIUM ↔ 25 ≤ min S 100 ∧ min S 100 < 50) ∧
    ((if 50 ≤ min S 100 then RiskCategory.HIGH
      else if 25 ≤ min S 100 then RiskCategory.MEDIUM else RiskCategory.LOW) =
        RiskCategory.LOW ↔ min S 100 < 25) := by
  refine ⟨Nat.min_comm _ _, Nat.min_le_right _ _, ?_, ?_, ?_⟩ <;>
    split_ifs with h1 h2 <;> simp <;> omega

/-- C1: every RiskScore produced by `compute_risk_score` has
`overall = min(100, sum of emitted factor weights)` (so 0 ≤ overall ≤ 100,
the lower bound holding by the `Nat` codomain), and its category is HIGH
iff overall ≥ 50, MEDIUM iff 25 ≤ overall < 50, LOW iff overall < 25. -/
theorem compute_risk_score_overall_category (tender : Tender) (companies : List Company)
    (directors : List Director) (officials : List PublicOfficial)
    (bids : List Bid) (G : Graph) (cartel_clusters : List (List String))
    (all_tenders : List Tender) (s : RiskScore)
    (h : compute_risk_score tender companies directors officials bids G
      cartel_clusters all_tenders = .ok s) :
    s.overall = min 100 ((s.factors.map (fun f => f.weight)).sum) ∧
    s.overall ≤ 100 ∧
    (s.category = .HIGH ↔ 50 ≤ s.overall) ∧
    (s.category = .MEDIUM ↔ 25 ≤ s.overall ∧ s.overall < 50) ∧
    (s.category = .LOW ↔ s.overall < 25) := by
  unfold compute_risk_score at h
  dsimp only at h
  generalize (match tender.awarded_to with
    | some aid => if aid = "" then none else companies.find? (fun c => c.id = aid)
    | none => none : Option Company) = winner at h
  split at h
  · exact absurd h (by simp)
  · injection h with h
    subst h
    exact category_spec _

/-- The score of the C1 witness input: no factors fire. -/
def c1Score : RiskScore :=
  { overall := 0, category := .LOW,
    recommendation := "No immediate action required. Routine monitoring recommended." }

/-- Witness for C1 on a concrete no-factor tender. -/
theorem compute_risk_score_overall_category_witness :
    (compute_risk_score ({ id := "t0", deadline := 100 } : Tender) [] [] [] []
        { nodes := [], edges := [] } [] [] = .ok c1Score) ∧
    (c1Score.overall = min 100 ((c1Score.factors.map (fun f => f.weight)).sum) ∧
     c1Score.overall ≤ 100 ∧
     (c1Score.category = .HIGH ↔ 50 ≤ c1Score.overall) ∧
     (c1Score.category = .MEDIUM ↔ 25 ≤ c1Score.overall ∧ c1Score.overall < 50) ∧
     (c1Score.category = .LOW ↔ c1Score.overall < 25)) := by
  have hcomp : compute_risk_score ({ id := "t0", deadline := 100 } : Tender) [] [] [] []
      { nodes := [], edges := [] } [] [] = .ok c1Score := by rfl
  exact ⟨hcomp, compute_risk_score_overall_category _ _ _ _ _ _ _ _ _ hcomp⟩
